import Mathlib

/-!
Shallow embedding of `server.py` (QR Menu Pro API): the data model
(Category / Product documents in two collections), the CRUD handlers, and
the token service.  Each handler is translated line by line from the
source; MongoDB single-document operations (`find_one`, `insert_one`,
`update_one`, `delete_one`, `count_documents`, `find().sort().to_list(n)`)
are modelled as the corresponding pure list operations on a `DB` state.

Modelling conventions:
* Ids are opaque strings.  The source converts the external id string to a
  BSON `ObjectId` at the store boundary (`find_one({"_id": ObjectId(x)})`)
  and back via `serialize_doc`; following the spec's store-adapter
  boundary, that translation is modelled as the identity on strings.
* Time is a `Nat` counted in minutes (`ACCESS_TOKEN_EXPIRE_MINUTES` is a
  duration in minutes in the source).
* A JWT is modelled abstractly: a well-formed token is its payload
  together with the key it was signed with; `jwt.decode` succeeds exactly
  when the token is well-formed and signed with the expected key, and then
  validates the `exp` claim (python-jose raises `ExpiredSignatureError`,
  a subclass of `JWTError`, when `exp <` current time).
* Errors are the `HTTPException(status_code, detail)` values raised by the
  source.  The spec's error taxonomy names the raise site at
  server.py:186 `Conflict` (the taxonomy is declared "conceptual, not
  bound to a specific wire format"); the source surfaces it with HTTP
  status 400 and detail "Cannot delete category with products".
* Handlers that mutate state return `(result, new state)`; an error
  result is always paired with the state at the time of the raise.
* Auth: every protected handler runs only after `verify_token` succeeded
  (a FastAPI dependency); the handlers below model the body that runs
  after that dependency, and the token service is modelled separately.
-/

/-- The `HTTPException(status_code, detail)` values raised by the source. -/
structure Err where
  status : Nat
  detail : String
deriving DecidableEq, Repr

/-- server.py:153 and server.py:219/237 — `HTTPException(404, "Category not found")`. -/
def categoryNotFound : Err := ⟨404, "Category not found"⟩

/-- server.py:211/245 — `HTTPException(404, "Product not found")`. -/
def productNotFound : Err := ⟨404, "Product not found"⟩

/-- server.py:168/231 — `HTTPException(400, "No fields to update")`. -/
def noFieldsToUpdate : Err := ⟨400, "No fields to update"⟩

/-- server.py:186 — `HTTPException(400, "Cannot delete category with products")`.
The spec's error taxonomy calls this condition `Conflict`
("delete blocked by referential rule"). -/
def cannotDeleteCategoryWithProducts : Err := ⟨400, "Cannot delete category with products"⟩

/-- server.py:135 — `HTTPException(401, "Incorrect username or password")`. -/
def incorrectCredentials : Err := ⟨401, "Incorrect username or password"⟩

/-- server.py:113/116 — `HTTPException(401, "Invalid authentication credentials")`. -/
def invalidAuthCredentials : Err := ⟨401, "Invalid authentication credentials"⟩

/-- A Category document (fields of `CategoryCreate` plus the assigned
`id` and `created_at`, server.py:56-60 and 158-159). -/
structure Category where
  id : String
  name_tr : String
  name_en : String
  sort_order : Int
  is_active : Bool
  created_at : Nat
deriving DecidableEq, Repr

/-- A Product document (fields of `ProductCreate` plus the assigned
`id` and `created_at`, server.py:68-77 and 221-222). -/
structure Product where
  id : String
  category_id : String
  name_tr : String
  name_en : String
  description_tr : Option String
  description_en : Option String
  price : Rat
  image_url : Option String
  sort_order : Int
  is_active : Bool
  created_at : Nat
deriving DecidableEq, Repr

/-- The two MongoDB collections (server.py:43-44). -/
structure DB where
  categories : List Category
  products : List Product
deriving DecidableEq, Repr

/-- Model of `CategoryCreate` (server.py:56-60). -/
structure CategoryCreate where
  name_tr : String
  name_en : String
  sort_order : Int
  is_active : Bool
deriving DecidableEq, Repr

/-- Model of `CategoryUpdate` (server.py:62-66): every field optional, `none`
is Python `None` (absent fields of the payload also become `None`). -/
structure CategoryUpdate where
  name_tr : Option String
  name_en : Option String
  sort_order : Option Int
  is_active : Option Bool
deriving DecidableEq, Repr

/-- Model of `ProductCreate` (server.py:68-77). -/
structure ProductCreate where
  category_id : String
  name_tr : String
  name_en : String
  description_tr : Option String
  description_en : Option String
  price : Rat
  image_url : Option String
  sort_order : Int
  is_active : Bool
deriving DecidableEq, Repr

/-- Model of `ProductUpdate` (server.py:79-88). -/
structure ProductUpdate where
  category_id : Option String
  name_tr : Option String
  name_en : Option String
  description_tr : Option String
  description_en : Option String
  price : Option Rat
  image_url : Option String
  sort_order : Option Int
  is_active : Option Bool
deriving DecidableEq, Repr

/-! ### Generic list models of the MongoDB single-document operations -/

/-- Mongo `update_one`: apply `f` to the first element satisfying `p`
(at most one document is modified). -/
def updateFirst (p : α → Bool) (f : α → α) : List α → List α
  | [] => []
  | a :: l => if p a then f a :: l else a :: updateFirst p f l

/-- Mongo `delete_one`: remove the first element satisfying `p`. -/
def eraseFirst (p : α → Bool) : List α → List α
  | [] => []
  | a :: l => if p a then l else a :: eraseFirst p l

/-! ### Token service (server.py:100-116) -/

/-- Model of `ACCESS_TOKEN_EXPIRE_MINUTES` (server.py:22, default `"30"`). -/
def ACCESS_TOKEN_EXPIRE_MINUTES : Nat := 30

/-- The claims of an encoded JWT: the `sub` claim set by `login`
(absent for a token minted with other data) and the `exp` claim. -/
structure JwtPayload where
  sub : Option String
  exp : Nat
deriving DecidableEq, Repr

/-- An incoming bearer token: either a well-formed JWT (its payload plus
the key it was signed with) or a malformed string. -/
inductive Jwt where
  | signed (payload : JwtPayload) (key : String)
  | malformed
deriving DecidableEq, Repr

/-- Model of `create_access_token` (server.py:100-105): copy the data, set
`exp = utcnow() + timedelta(minutes=ACCESS_TOKEN_EXPIRE_MINUTES)`, and
sign with `SECRET_KEY` (here the parameter `secret`).  `now` is the
current time in minutes; `sub` is the `"sub"` entry of `data`. -/
def create_access_token (secret : String) (now : Nat) (sub : Option String) : Jwt :=
  .signed ⟨sub, now + ACCESS_TOKEN_EXPIRE_MINUTES⟩ secret

/-- Model of `verify_token` (server.py:107-116): `jwt.decode` fails (`JWTError`,
caught and turned into a 401) on a malformed token, a wrong signing key,
or an expired `exp` claim; then a missing `sub` claim is also a 401;
otherwise the username is returned. -/
def verify_token (secret : String) (now : Nat) (t : Jwt) : Except Err String :=
  match t with
  | .malformed => .error invalidAuthCredentials
  | .signed payload key =>
    if key ≠ secret then .error invalidAuthCredentials
    else if payload.exp < now then .error invalidAuthCredentials
    else match payload.sub with
      | none => .error invalidAuthCredentials
      | some username => .ok username

/-- Model of `login` (server.py:130-135): exact match of both username and
password against the configured admin pair, then a token with
`{"sub": username}`; otherwise 401. -/
def login (adminUsername adminPassword secret : String) (now : Nat)
    (username password : String) : Except Err Jwt :=
  if username = adminUsername ∧ password = adminPassword then
    .ok (create_access_token secret now (some username))
  else
    .error incorrectCredentials

/-! ### Category endpoints (server.py:143-192) -/

/-- The Mongo sort key of both listing endpoints: ascending `sort_order`. -/
def sortOrderLe (a b : Category) : Prop := a.sort_order ≤ b.sort_order

instance : DecidableRel sortOrderLe := fun a b => Int.decLe a.sort_order b.sort_order

instance : IsTotal Category sortOrderLe := ⟨fun a b => Int.le_total a.sort_order b.sort_order⟩

instance : IsTrans Category sortOrderLe := ⟨fun _ _ _ => Int.le_trans⟩

/-- Model of `get_categories` (server.py:143-147): filter by `is_active` when
`active_only`, sort ascending by `sort_order`, `to_list(100)` returns at
most the first 100 documents. -/
def get_categories (db : DB) (active_only : Bool) : List Category :=
  ((if active_only then db.categories.filter (·.is_active) else db.categories).insertionSort
    sortOrderLe).take 100

/-- Model of `get_category` (server.py:149-154): `find_one` by id, 404 when absent. -/
def get_category (db : DB) (category_id : String) : Except Err Category :=
  match db.categories.find? (fun c => c.id = category_id) with
  | none => .error categoryNotFound
  | some c => .ok c

/-- Model of `create_category` (server.py:156-162): set `created_at`, insert, then
`find_one` the inserted id and return it serialized (`serialize_doc` of a
missing document would be `None`, hence the `Option` result).  `newId` is
the `ObjectId` the driver assigns; `now` is `utcnow()`. -/
def create_category (db : DB) (fields : CategoryCreate) (newId : String) (now : Nat) :
    Except Err (Option Category) × DB :=
  let doc : Category :=
    ⟨newId, fields.name_tr, fields.name_en, fields.sort_order, fields.is_active, now⟩
  let db' : DB := { db with categories := db.categories ++ [doc] }
  (.ok (db'.categories.find? (fun c => c.id = newId)), db')

/-- The `$set update_data` of `update_category` (server.py:166/170-173):
only the non-`None` fields overwrite; `id` and `created_at` are not in
`CategoryUpdate` and are untouched. -/
def applyCategoryUpdate (u : CategoryUpdate) (c : Category) : Category :=
  { c with
    name_tr := u.name_tr.getD c.name_tr
    name_en := u.name_en.getD c.name_en
    sort_order := u.sort_order.getD c.sort_order
    is_active := u.is_active.getD c.is_active }

/-- Model of `if not update_data` (server.py:167): the dict comprehension kept the
non-`None` fields, so the payload is empty iff every field is `None`. -/
def CategoryUpdate.hasFields (u : CategoryUpdate) : Bool :=
  u.name_tr.isSome || u.name_en.isSome || u.sort_order.isSome || u.is_active.isSome

/-- Model of `update_category` (server.py:164-179): 400 on an empty payload before
any store call; `update_one` by id; 404 when it matched nothing; else
`find_one` the updated document. -/
def update_category (db : DB) (category_id : String) (u : CategoryUpdate) :
    Except Err (Option Category) × DB :=
  if ¬ u.hasFields then (.error noFieldsToUpdate, db)
  else
    let matched := db.categories.any (fun c => c.id = category_id)
    let db' : DB :=
      { db with categories :=
          updateFirst (fun c => c.id = category_id) (applyCategoryUpdate u) db.categories }
    if ¬ matched then (.error categoryNotFound, db')
    else (.ok (db'.categories.find? (fun c => c.id = category_id)), db')

/-- Model of `delete_category` (server.py:181-192): first `count_documents` the
products whose `category_id` equals the path id; 400 ("Cannot delete
category with products") when the count is positive; then `delete_one`
by id; 404 when it deleted nothing. -/
def delete_category (db : DB) (category_id : String) : Except Err String × DB :=
  if 0 < db.products.countP (fun p => p.category_id = category_id) then
    (.error cannotDeleteCategoryWithProducts, db)
  else
    let deleted := db.categories.any (fun c => c.id = category_id)
    let db' : DB :=
      { db with categories := eraseFirst (fun c => c.id = category_id) db.categories }
    if ¬ deleted then (.error categoryNotFound, db')
    else (.ok "Category deleted successfully", db')

/-! ### Product endpoints (server.py:196-256) -/

/-- The Mongo sort key of `get_products`: ascending `sort_order`. -/
def psortOrderLe (a b : Product) : Prop := a.sort_order ≤ b.sort_order

instance : DecidableRel psortOrderLe := fun a b => Int.decLe a.sort_order b.sort_order

instance : IsTotal Product psortOrderLe := ⟨fun a b => Int.le_total a.sort_order b.sort_order⟩

instance : IsTrans Product psortOrderLe := ⟨fun _ _ _ => Int.le_trans⟩

/-- The query filter of `get_products` (server.py:198-202): the
`category_id` clause is added only when the parameter is truthy in
Python (`if category_id:`), i.e. neither `None` nor the empty string. -/
def productQuery (category_id : Option String) (active_only : Bool) (p : Product) : Bool :=
  (match category_id with
   | none => true
   | some cid => if cid = "" then true else p.category_id = cid)
  && (if active_only then p.is_active else true)

/-- Model of `get_products` (server.py:196-205): filter, sort ascending by
`sort_order`, `to_list(1000)` returns at most the first 1000 documents. -/
def get_products (db : DB) (category_id : Option String) (active_only : Bool) : List Product :=
  ((db.products.filter (productQuery category_id active_only)).insertionSort
    psortOrderLe).take 1000

/-- Model of `get_product` (server.py:207-212): `find_one` by id, 404 when absent. -/
def get_product (db : DB) (product_id : String) : Except Err Product :=
  match db.products.find? (fun p => p.id = product_id) with
  | none => .error productNotFound
  | some p => .ok p

/-- Model of `create_product` (server.py:214-225): first `find_one` the category
by `product.category_id`, 404 ("Category not found") when absent; only
then set `created_at`, insert, and return the inserted document. -/
def create_product (db : DB) (fields : ProductCreate) (newId : String) (now : Nat) :
    Except Err (Option Product) × DB :=
  match db.categories.find? (fun c => c.id = fields.category_id) with
  | none => (.error categoryNotFound, db)
  | some _ =>
    let doc : Product :=
      ⟨newId, fields.category_id, fields.name_tr, fields.name_en, fields.description_tr,
        fields.description_en, fields.price, fields.image_url, fields.sort_order,
        fields.is_active, now⟩
    let db' : DB := { db with products := db.products ++ [doc] }
    (.ok (db'.products.find? (fun p => p.id = newId)), db')

/-- The `$set update_data` of `update_product` (server.py:229/239-242):
only the non-`None` fields overwrite; `id` and `created_at` are not in
`ProductUpdate` and are untouched. -/
def applyProductUpdate (u : ProductUpdate) (p : Product) : Product :=
  { p with
    category_id := u.category_id.getD p.category_id
    name_tr := u.name_tr.getD p.name_tr
    name_en := u.name_en.getD p.name_en
    description_tr := match u.description_tr with | none => p.description_tr | some v => some v
    description_en := match u.description_en with | none => p.description_en | some v => some v
    price := u.price.getD p.price
    image_url := match u.image_url with | none => p.image_url | some v => some v
    sort_order := u.sort_order.getD p.sort_order
    is_active := u.is_active.getD p.is_active }

/-- Model of `if not update_data` (server.py:230). -/
def ProductUpdate.hasFields (u : ProductUpdate) : Bool :=
  u.category_id.isSome || u.name_tr.isSome || u.name_en.isSome || u.description_tr.isSome ||
  u.description_en.isSome || u.price.isSome || u.image_url.isSome || u.sort_order.isSome ||
  u.is_active.isSome

/-- Model of `update_product` (server.py:227-248): 400 on an empty payload; if
`category_id` is among the supplied fields, `find_one` the category and
404 ("Category not found") when absent; then `update_one` the product by
id; 404 ("Product not found") when it matched nothing. -/
def update_product (db : DB) (product_id : String) (u : ProductUpdate) :
    Except Err (Option Product) × DB :=
  if ¬ u.hasFields then (.error noFieldsToUpdate, db)
  else
    let categoryOk :=
      match u.category_id with
      | none => true
      | some cid => (db.categories.find? (fun c => c.id = cid)).isSome
    if !categoryOk then (.error categoryNotFound, db)
    else
      let matched := db.products.any (fun p => p.id = product_id)
      let db' : DB :=
        { db with products :=
            updateFirst (fun p => p.id = product_id) (applyProductUpdate u) db.products }
      if ¬ matched then (.error productNotFound, db')
      else (.ok (db'.products.find? (fun p => p.id = product_id)), db')

/-- Model of `delete_product` (server.py:250-256): `delete_one` by id; 404 when
it deleted nothing. -/
def delete_product (db : DB) (product_id : String) : Except Err String × DB :=
  let deleted := db.products.any (fun p => p.id = product_id)
  let db' : DB := { db with products := eraseFirst (fun p => p.id = product_id) db.products }
  if ¬ deleted then (.error productNotFound, db')
  else (.ok "Product deleted successfully", db')

/-! ### Sequential interleavings of the operations -/

/-- One authenticated mutating operation applied to the store: the state
after running any of the six handlers (successfully or not) with any
arguments. -/
inductive Step : DB → DB → Prop where
  | createCat (db : DB) (fields : CategoryCreate) (newId : String) (now : Nat) :
      Step db (create_category db fields newId now).2
  | updateCat (db : DB) (category_id : String) (u : CategoryUpdate) :
      Step db (update_category db category_id u).2
  | deleteCat (db : DB) (category_id : String) :
      Step db (delete_category db category_id).2
  | createProd (db : DB) (fields : ProductCreate) (newId : String) (now : Nat) :
      Step db (create_product db fields newId now).2
  | updateProd (db : DB) (product_id : String) (u : ProductUpdate) :
      Step db (update_product db product_id u).2
  | deleteProd (db : DB) (product_id : String) :
      Step db (delete_product db product_id).2

/-- The empty store. -/
def DB.empty : DB := ⟨[], []⟩

/-- States reachable from the empty store by a sequential interleaving of
the six mutating operations. -/
def Reachable (db : DB) : Prop := Relation.ReflTransGen Step DB.empty db

/-- The referential-integrity invariant: every product's `category_id`
is the id of some stored category. -/
def RefIntegrity (db : DB) : Prop :=
  ∀ p ∈ db.products, p.category_id ∈ db.categories.map (·.id)

/-- A store exceeding the `to_list(100)` page of `get_categories`: the
category with id `toString i`, sort order `i`, active. -/
def catN (i : Nat) : Category := ⟨toString i, "n", "n", (i : Int), true, 0⟩

/-- A store with 101 active categories and no product. -/
def bigDB : DB := ⟨(List.range 101).map catN, []⟩

/-! ### Helper lemmas about the list models -/

theorem updateFirst_map (p : α → Bool) (f : α → α) (g : α → β)
    (hg : ∀ a, g (f a) = g a) : ∀ l : List α, (updateFirst p f l).map g = l.map g
  | [] => rfl
  | a :: l => by
    by_cases h : p a <;> simp [updateFirst, h, hg, updateFirst_map p f g hg l]

theorem mem_updateFirst (p : α → Bool) (f : α → α) :
    ∀ {l : List α} {x : α}, x ∈ updateFirst p f l → x ∈ l ∨ ∃ a ∈ l, x = f a := by
  intro l
  induction l with
  | nil => intro x hx; cases hx
  | cons a l ih =>
    intro x hx
    by_cases h : p a
    · simp [updateFirst, h] at hx
      rcases hx with hx | hx
      · exact .inr ⟨a, by simp, hx⟩
      · exact .inl (by simp [hx])
    · simp [updateFirst, h] at hx
      rcases hx with hx | hx
      · exact .inl (by simp [hx])
      · rcases ih hx with hx' | ⟨b, hb, hbx⟩
        · exact .inl (by simp [hx'])
        · exact .inr ⟨b, by simp [hb], hbx⟩

theorem mem_of_mem_eraseFirst (p : α → Bool) :
    ∀ {l : List α} {x : α}, x ∈ eraseFirst p l → x ∈ l := by
  intro l
  induction l with
  | nil => intro x hx; cases hx
  | cons a l ih =>
    intro x hx
    by_cases h : p a
    · simp [eraseFirst, h] at hx; simp [hx]
    · simp [eraseFirst, h] at hx
      rcases hx with hx | hx
      · simp [hx]
      · simp [ih hx]

theorem mem_map_eraseFirst (p : α → Bool) (g : α → β) {y : β} :
    ∀ {l : List α}, y ∈ l.map g → (∀ a, p a → g a ≠ y) → y ∈ (eraseFirst p l).map g := by
  intro l
  induction l with
  | nil => intro hy; cases hy
  | cons a l ih =>
    intro hy hp
    by_cases h : p a
    · simp [eraseFirst, h]
      simp at hy
      rcases hy with hy | hy
      · exact absurd hy.symm (hp a h)
      · exact hy
    · simp [eraseFirst, h]
      simp at hy
      rcases hy with hy | hy
      · exact .inl hy
      · exact .inr (by simpa using ih (by simpa using hy) hp)

theorem eraseFirst_of_forall_neg (p : α → Bool) :
    ∀ {l : List α}, (∀ a ∈ l, ¬ p a) → eraseFirst p l = l := by
  intro l
  induction l with
  | nil => intro _; rfl
  | cons a l ih =>
    intro h
    have ha : ¬ p a := h a (by simp)
    simp [eraseFirst, ha]
    exact ih fun b hb => h b (by simp [hb])

/-! ### Claim theorems -/

/-- C5: Empty partial update: for both `update_category` and
`update_product`, a payload whose supplied (non-null) field set is empty
fails with `BadRequest` ("No fields to update") before any store call,
and the whole store is returned unchanged. -/
theorem empty_update_bad_request (db : DB) (cid pid : String)
    (uc : CategoryUpdate) (up : ProductUpdate)
    (hc : uc.hasFields = false) (hp : up.hasFields = false) :
    update_category db cid uc = (.error noFieldsToUpdate, db) ∧
    update_product db pid up = (.error noFieldsToUpdate, db) :=
  ⟨by simp [update_category, hc], by simp [update_product, hp]⟩

/-- Witness for C5: the all-`none` payloads on a concrete store. -/
theorem empty_update_bad_request_witness :
    update_category ⟨[⟨"c1", "a", "b", 0, true, 0⟩], []⟩ "c1" ⟨none, none, none, none⟩ =
      (.error noFieldsToUpdate, ⟨[⟨"c1", "a", "b", 0, true, 0⟩], []⟩) ∧
    update_product ⟨[⟨"c1", "a", "b", 0, true, 0⟩], []⟩ "p1"
        ⟨none, none, none, none, none, none, none, none, none⟩ =
      (.error noFieldsToUpdate, ⟨[⟨"c1", "a", "b", 0, true, 0⟩], []⟩) :=
  empty_update_bad_request _ "c1" "p1" _ _ rfl rfl

/-- C7: Get-by-id: when no category (resp. product) in the store has
the requested id, `get_category` (resp. `get_product`) fails with
`NotFound`. -/
theorem get_by_id_not_found (db : DB) (cid pid : String)
    (hc : cid ∉ db.categories.map (·.id)) (hp : pid ∉ db.products.map (·.id)) :
    get_category db cid = .error categoryNotFound ∧
    get_product db pid = .error productNotFound := by
  constructor
  · have h : db.categories.find? (fun c => c.id = cid) = none := by
      rw [List.find?_eq_none]
      intro c hcmem
      simp only [decide_eq_true_eq]
      intro heq
      exact hc (List.mem_map.mpr ⟨c, hcmem, heq⟩)
    simp [get_category, h]
  · have h : db.products.find? (fun p => p.id = pid) = none := by
      rw [List.find?_eq_none]
      intro p hpmem
      simp only [decide_eq_true_eq]
      intro heq
      exact hp (List.mem_map.mpr ⟨p, hpmem, heq⟩)
    simp [get_product, h]

/-- Witness for C7: a store holding one category and no product, probed
with absent ids. -/
theorem get_by_id_not_found_witness :
    get_category ⟨[⟨"c1", "a", "b", 0, true, 0⟩], []⟩ "c2" = .error categoryNotFound ∧
    get_product ⟨[⟨"c1", "a", "b", 0, true, 0⟩], []⟩ "p1" = .error productNotFound :=
  get_by_id_not_found _ "c2" "p1" (by decide) (by decide)

/-- C8: Login: for every (username, password) pair, `login` succeeds
(returns a token) iff the pair exactly equals the configured admin
credential pair; every other combination fails with `Unauthorized`
("Incorrect username or password"). -/
theorem login_exact_match (adminU adminP secret : String) (now : Nat)
    (username password : String) :
    ((∃ t, login adminU adminP secret now username password = .ok t) ↔
      username = adminU ∧ password = adminP) ∧
    (¬ (username = adminU ∧ password = adminP) →
      login adminU adminP secret now username password = .error incorrectCredentials) := by
  by_cases h : username = adminU ∧ password = adminP <;> simp [login, h]

/-- Witness for C8: the default configured pair (`admin` / `admin123`)
succeeds and a wrong password fails. -/
theorem login_exact_match_witness :
    (∃ t, login "admin" "admin123" "secret" 0 "admin" "admin123" = .ok t) ∧
    login "admin" "admin123" "secret" 0 "admin" "wrong" = .error incorrectCredentials :=
  ⟨(login_exact_match "admin" "admin123" "secret" 0 "admin" "admin123").1.mpr
      ⟨rfl, rfl⟩,
    (login_exact_match "admin" "admin123" "secret" 0 "admin" "wrong").2 (by decide)⟩

/-- C9: Token expiry: a token minted at `T` with the default
30-minute TTL is accepted at `T+29` and rejected with `Unauthorized` at
`T+31`; in general `verify_token` fails with `Unauthorized` on a wrong
signing key, on a malformed token, and whenever the current time exceeds
the embedded expiry. -/
theorem token_expiry (secret sub : String) (T : Nat) :
    verify_token secret (T + 29) (create_access_token secret T (some sub)) = .ok sub ∧
    verify_token secret (T + 31) (create_access_token secret T (some sub)) =
      .error invalidAuthCredentials ∧
    (∀ (payload : JwtPayload) (key : String) (now : Nat), key ≠ secret →
      verify_token secret now (.signed payload key) = .error invalidAuthCredentials) ∧
    (∀ now : Nat, verify_token secret now .malformed = .error invalidAuthCredentials) ∧
    (∀ (payload : JwtPayload) (now : Nat), payload.exp < now →
      verify_token secret now (.signed payload secret) = .error invalidAuthCredentials) := by
  refine ⟨?_, ?_, ?_, ?_, ?_⟩
  · simp [verify_token, create_access_token, ACCESS_TOKEN_EXPIRE_MINUTES]
  · simp [verify_token, create_access_token, ACCESS_TOKEN_EXPIRE_MINUTES]
  · intro payload key now hk
    simp [verify_token, hk]
  · intro now
    simp [verify_token]
  · intro payload now hexp
    simp [verify_token, hexp]

/-- Witness for C9: a concrete token at `T = 0`, a wrong key, and an
expired payload. -/
theorem token_expiry_witness :
    verify_token "s" 29 (create_access_token "s" 0 (some "admin")) = .ok "admin" ∧
    verify_token "s" 31 (create_access_token "s" 0 (some "admin")) =
      .error invalidAuthCredentials ∧
    verify_token "s" 0 (.signed ⟨some "admin", 30⟩ "other") = .error invalidAuthCredentials ∧
    verify_token "s" 0 .malformed = .error invalidAuthCredentials ∧
    verify_token "s" 31 (.signed ⟨some "admin", 30⟩ "s") = .error invalidAuthCredentials := by
  have h := token_expiry "s" "admin" 0
  exact ⟨h.1, h.2.1, h.2.2.1 ⟨some "admin", 30⟩ "other" 0 (by decide), h.2.2.2.1 0,
    h.2.2.2.2 ⟨some "admin", 30⟩ 31 (by decide)⟩

/-- C3: Product create with an unknown category: when the supplied
`category_id` is the id of no stored category, `create_product` fails
with `NotFound` ("Category not found") and the store — in particular the
product collection — is returned unchanged: the category lookup precedes
id/`created_at` assignment and persistence. -/
theorem create_product_unknown_category (db : DB) (fields : ProductCreate)
    (newId : String) (now : Nat)
    (h : fields.category_id ∉ db.categories.map (·.id)) :
    create_product db fields newId now = (.error categoryNotFound, db) := by
  have hf : db.categories.find? (fun c => c.id = fields.category_id) = none := by
    rw [List.find?_eq_none]
    intro c hcmem
    simp only [decide_eq_true_eq]
    intro heq
    exact h (List.mem_map.mpr ⟨c, hcmem, heq⟩)
  simp [create_product, hf]

/-- Witness for C3: creating a product against a store whose only
category has a different id. -/
theorem create_product_unknown_category_witness :
    create_product ⟨[⟨"c1", "a", "b", 0, true, 0⟩], []⟩
        ⟨"c2", "Cola", "Cola", none, none, 5, none, 0, true⟩ "p1" 7 =
      (.error categoryNotFound, ⟨[⟨"c1", "a", "b", 0, true, 0⟩], []⟩) :=
  create_product_unknown_category _ _ "p1" 7 (by decide)

/-- C4: Product update with an unknown category reference: when the
payload supplies a `category_id` that is the id of no stored category,
`update_product` fails with `NotFound` ("Category not found") and the
store — in particular every stored product — is returned unchanged: the
category check precedes the store write. -/
theorem update_product_unknown_category (db : DB) (pid : String)
    (u : ProductUpdate) (cid : String) (hcid : u.category_id = some cid)
    (h : cid ∉ db.categories.map (·.id)) :
    update_product db pid u = (.error categoryNotFound, db) := by
  have hf : db.categories.find? (fun c => c.id = cid) = none := by
    rw [List.find?_eq_none]
    intro c hcmem
    simp only [decide_eq_true_eq]
    intro heq
    exact h (List.mem_map.mpr ⟨c, hcmem, heq⟩)
  have hfields : u.hasFields = true := by
    simp [ProductUpdate.hasFields, hcid]
  simp [update_product, hfields, hcid, hf]

/-- Witness for C4: updating a stored product's `category_id` to an id
the category collection does not hold. -/
theorem update_product_unknown_category_witness :
    update_product
        ⟨[⟨"c1", "a", "b", 0, true, 0⟩],
          [⟨"p1", "c1", "Cola", "Cola", none, none, 5, none, 0, true, 0⟩]⟩ "p1"
        ⟨some "c9", none, none, none, none, none, none, none, none⟩ =
      (.error categoryNotFound,
        ⟨[⟨"c1", "a", "b", 0, true, 0⟩],
          [⟨"p1", "c1", "Cola", "Cola", none, none, 5, none, 0, true, 0⟩]⟩) :=
  update_product_unknown_category _ "p1" _ "c9" rfl (by decide)

/-- C2: Category delete: the handler first counts the products whose
`category_id` equals the requested id; when the count is positive it
fails with the spec's `Conflict` error ("Cannot delete category with
products") and the store — in particular the category — is unchanged;
when the count is zero it deletes the category when the id resolves, and
fails with `NotFound` (store unchanged) when it does not. -/
theorem delete_category_spec (db : DB) (cid : String) :
    (0 < db.products.countP (fun p => p.category_id = cid) →
      delete_category db cid = (.error cannotDeleteCategoryWithProducts, db)) ∧
    (db.products.countP (fun p => p.category_id = cid) = 0 →
      (cid ∈ db.categories.map (·.id) →
        delete_category db cid =
          (.ok "Category deleted successfully",
            { db with categories := eraseFirst (fun c => c.id = cid) db.categories })) ∧
      (cid ∉ db.categories.map (·.id) →
        delete_category db cid = (.error categoryNotFound, db))) := by
  constructor
  · intro hcount
    simp [delete_category, hcount]
  · intro hcount
    have hnotlt : ¬ 0 < db.products.countP (fun p => p.category_id = cid) := by
      simp [hcount]
    constructor
    · intro hmem
      have hany : db.categories.any (fun c => c.id = cid) = true := by
        rw [List.any_eq_true]
        rcases List.mem_map.mp hmem with ⟨c, hc, hceq⟩
        exact ⟨c, hc, by simp [hceq]⟩
      simp [delete_category, hnotlt, hany]
    · intro hmem
      have hany : ¬ db.categories.any (fun c => c.id = cid) = true := by
        rw [List.any_eq_true]
        rintro ⟨c, hc, hceq⟩
        exact hmem (List.mem_map.mpr ⟨c, hc, by simpa using hceq⟩)
      have hunchanged : eraseFirst (fun c => c.id = cid) db.categories = db.categories := by
        apply eraseFirst_of_forall_neg
        intro c hc heq
        exact hany (List.any_eq_true.mpr ⟨c, hc, heq⟩)
      simp [delete_category, hnotlt, hany, hunchanged]

/-- Witness for C2: a referenced category is protected; after the
product is gone the same delete succeeds; an absent id is `NotFound`. -/
theorem delete_category_spec_witness :
    delete_category
        ⟨[⟨"c1", "a", "b", 0, true, 0⟩],
          [⟨"p1", "c1", "Cola", "Cola", none, none, 5, none, 0, true, 0⟩]⟩ "c1" =
      (.error cannotDeleteCategoryWithProducts,
        ⟨[⟨"c1", "a", "b", 0, true, 0⟩],
          [⟨"p1", "c1", "Cola", "Cola", none, none, 5, none, 0, true, 0⟩]⟩) ∧
    delete_category ⟨[⟨"c1", "a", "b", 0, true, 0⟩], []⟩ "c1" =
      (.ok "Category deleted successfully", ⟨[], []⟩) ∧
    delete_category ⟨[⟨"c1", "a", "b", 0, true, 0⟩], []⟩ "c2" =
      (.error categoryNotFound, ⟨[⟨"c1", "a", "b", 0, true, 0⟩], []⟩) := by
  refine ⟨(delete_category_spec _ "c1").1 (by decide), ?_, ?_⟩
  · have h := ((delete_category_spec ⟨[⟨"c1", "a", "b", 0, true, 0⟩], []⟩ "c1").2
      (by decide)).1 (by decide)
    simpa [eraseFirst] using h
  · exact ((delete_category_spec ⟨[⟨"c1", "a", "b", 0, true, 0⟩], []⟩ "c2").2
      (by decide)).2 (by decide)

/-- C10: Null-means-unset frame property: in both update handlers a
`None` payload field is excluded from the `$set` document, so every
field not supplied keeps its previous value; the state written by a
non-empty update is exactly `updateFirst` of the field-wise merge (and
an empty payload writes nothing); consequently an optional field
(`description_tr`, `description_en`, `image_url`) that is set can never
be cleared back to null through update. -/
theorem null_fields_keep_previous_values (uc : CategoryUpdate) (c : Category)
    (u : ProductUpdate) (p : Product) (db : DB) (cid pid : String) :
    (uc.name_tr = none → (applyCategoryUpdate uc c).name_tr = c.name_tr) ∧
    (uc.name_en = none → (applyCategoryUpdate uc c).name_en = c.name_en) ∧
    (uc.sort_order = none → (applyCategoryUpdate uc c).sort_order = c.sort_order) ∧
    (uc.is_active = none → (applyCategoryUpdate uc c).is_active = c.is_active) ∧
    (applyCategoryUpdate uc c).id = c.id ∧
    (applyCategoryUpdate uc c).created_at = c.created_at ∧
    (u.category_id = none → (applyProductUpdate u p).category_id = p.category_id) ∧
    (u.name_tr = none → (applyProductUpdate u p).name_tr = p.name_tr) ∧
    (u.name_en = none → (applyProductUpdate u p).name_en = p.name_en) ∧
    (u.description_tr = none → (applyProductUpdate u p).description_tr = p.description_tr) ∧
    (u.description_en = none → (applyProductUpdate u p).description_en = p.description_en) ∧
    (u.price = none → (applyProductUpdate u p).price = p.price) ∧
    (u.image_url = none → (applyProductUpdate u p).image_url = p.image_url) ∧
    (u.sort_order = none → (applyProductUpdate u p).sort_order = p.sort_order) ∧
    (u.is_active = none → (applyProductUpdate u p).is_active = p.is_active) ∧
    (applyProductUpdate u p).id = p.id ∧
    (applyProductUpdate u p).created_at = p.created_at ∧
    (p.description_tr.isSome → ((applyProductUpdate u p).description_tr).isSome) ∧
    (p.description_en.isSome → ((applyProductUpdate u p).description_en).isSome) ∧
    (p.image_url.isSome → ((applyProductUpdate u p).image_url).isSome) ∧
    (uc.hasFields = false → (update_category db cid uc).2 = db) ∧
    (uc.hasFields = true → (update_category db cid uc).2.categories =
      updateFirst (fun x => x.id = cid) (applyCategoryUpdate uc) db.categories) ∧
    (u.hasFields = false → (update_product db pid u).2 = db) ∧
    (u.hasFields = true → (update_product db pid u).2.products = db.products ∨
      (update_product db pid u).2.products =
        updateFirst (fun x => x.id = pid) (applyProductUpdate u) db.products) := by
  refine ⟨fun h => by simp [applyCategoryUpdate, h],
    fun h => by simp [applyCategoryUpdate, h],
    fun h => by simp [applyCategoryUpdate, h],
    fun h => by simp [applyCategoryUpdate, h],
    rfl, rfl,
    fun h => by simp [applyProductUpdate, h],
    fun h => by simp [applyProductUpdate, h],
    fun h => by simp [applyProductUpdate, h],
    fun h => by simp [applyProductUpdate, h],
    fun h => by simp [applyProductUpdate, h],
    fun h => by simp [applyProductUpdate, h],
    fun h => by simp [applyProductUpdate, h],
    fun h => by simp [applyProductUpdate, h],
    fun h => by simp [applyProductUpdate, h],
    rfl, rfl, ?_, ?_, ?_, ?_, ?_, ?_, ?_⟩
  · cases hd : u.description_tr <;> simp [applyProductUpdate, hd]
  · cases hd : u.description_en <;> simp [applyProductUpdate, hd]
  · cases hd : u.image_url <;> simp [applyProductUpdate, hd]
  · intro h
    simp [update_category, h]
  · intro h
    by_cases hm : db.categories.any (fun x => x.id = cid) <;>
      simp [update_category, h, hm]
  · intro h
    simp [update_product, h]
  · intro h
    by_cases hcat : (match u.category_id with
      | none => true
      | some catid => (db.categories.find? (fun c => c.id = catid)).isSome) = true
    · by_cases hm : db.products.any (fun x => x.id = pid) <;>
        simp [update_product, h, hcat, hm]
    · simp [update_product, h, hcat]

/-- Witness for C10: a concrete one-field update leaves the other fields
of a concrete product and category untouched and cannot clear its set
description. -/
theorem null_fields_keep_previous_values_witness :
    (applyCategoryUpdate ⟨some "x", none, none, none⟩ ⟨"c1", "a", "b", 3, true, 0⟩).sort_order
        = 3 ∧
    (applyProductUpdate ⟨none, none, none, none, none, some 9, none, none, none⟩
        ⟨"p1", "c1", "Cola", "Cola", some "d", none, 5, none, 0, true, 0⟩).description_tr.isSome
        = true ∧
    (update_category ⟨[⟨"c1", "a", "b", 3, true, 0⟩], []⟩ "c1" ⟨none, none, none, none⟩).2 =
      ⟨[⟨"c1", "a", "b", 3, true, 0⟩], []⟩ := by
  have h := null_fields_keep_previous_values ⟨some "x", none, none, none⟩
    ⟨"c1", "a", "b", 3, true, 0⟩
    ⟨none, none, none, none, none, some 9, none, none, none⟩
    ⟨"p1", "c1", "Cola", "Cola", some "d", none, 5, none, 0, true, 0⟩
    ⟨[⟨"c1", "a", "b", 3, true, 0⟩], []⟩ "c1" "p1"
  have h2 := null_fields_keep_previous_values ⟨none, none, none, none⟩
    ⟨"c1", "a", "b", 3, true, 0⟩
    ⟨none, none, none, none, none, some 9, none, none, none⟩
    ⟨"p1", "c1", "Cola", "Cola", some "d", none, 5, none, 0, true, 0⟩
    ⟨[⟨"c1", "a", "b", 3, true, 0⟩], []⟩ "c1" "p1"
  refine ⟨h.2.2.1 rfl, ?_, ?_⟩
  · exact h.2.2.2.2.2.2.2.2.2.2.2.2.2.2.2.2.2.1 rfl
  · exact h2.2.2.2.2.2.2.2.2.2.2.2.2.2.2.2.2.2.2.2.2.1 rfl

/-- C6 counterexample: The claim fails as stated for every store
state: with 101 stored active categories, `get_categories` (which
returns at most the first 100 documents, `to_list(100)`) omits a stored
active category both with and without `active_only`. -/
theorem listing_truncation_counterexample :
    catN 100 ∈ bigDB.categories ∧ (catN 100).is_active = true ∧
    catN 100 ∉ get_categories bigDB true ∧
    catN 100 ∉ get_categories bigDB false := by decide

/-- C6 amended: For stores within the handlers' page sizes (at
most 100 categories resp. 1000 products), listing with
`active_only = true` returns exactly the stored entities with
`is_active = true` and with `active_only = false` all stored entities,
in both cases sorted ascending by `sort_order`. -/
theorem listing_spec (db : DB) (ao : Bool)
    (hc : db.categories.length ≤ 100) (hp : db.products.length ≤ 1000) :
    (∀ c : Category, c ∈ get_categories db ao ↔
      c ∈ db.categories ∧ (ao = true → c.is_active = true)) ∧
    List.Sorted sortOrderLe (get_categories db ao) ∧
    (∀ p : Product, p ∈ get_products db none ao ↔
      p ∈ db.products ∧ (ao = true → p.is_active = true)) ∧
    List.Sorted psortOrderLe (get_products db none ao) := by
  have hclen : (if ao then db.categories.filter (·.is_active) else db.categories).length ≤ 100 := by
    cases ao
    · simpa using hc
    · simpa using le_trans (List.length_filter_le _ _) hc
  have hctake : get_categories db ao =
      (if ao then db.categories.filter (·.is_active) else db.categories).insertionSort
        sortOrderLe := by
    unfold get_categories
    exact List.take_of_length_le (by simpa using hclen)
  have hplen : (db.products.filter (productQuery none ao)).length ≤ 1000 :=
    le_trans (List.length_filter_le _ _) hp
  have hptake : get_products db none ao =
      (db.products.filter (productQuery none ao)).insertionSort psortOrderLe := by
    unfold get_products
    exact List.take_of_length_le (by simpa using hplen)
  refine ⟨?_, ?_, ?_, ?_⟩
  · intro c
    rw [hctake, List.mem_insertionSort]
    cases ao <;> simp [List.mem_filter]
  · rw [hctake]
    exact List.sorted_insertionSort _ _
  · intro p
    rw [hptake, List.mem_insertionSort]
    cases ao <;> simp [List.mem_filter, productQuery]
  · rw [hptake]
    exact List.sorted_insertionSort _ _

/-- Witness for the amended C6: a concrete two-category, one-product
store within the page sizes. -/
theorem listing_spec_witness :
    (⟨"c2", "a", "b", 1, true, 0⟩ : Category) ∈
      get_categories ⟨[⟨"c1", "a", "b", 2, true, 0⟩, ⟨"c2", "a", "b", 1, true, 0⟩],
        [⟨"p1", "c1", "Cola", "Cola", none, none, 5, none, 0, false, 0⟩]⟩ false ∧
    List.Sorted sortOrderLe
      (get_categories ⟨[⟨"c1", "a", "b", 2, true, 0⟩, ⟨"c2", "a", "b", 1, true, 0⟩],
        [⟨"p1", "c1", "Cola", "Cola", none, none, 5, none, 0, false, 0⟩]⟩ false) ∧
    (⟨"p1", "c1", "Cola", "Cola", none, none, 5, none, 0, false, 0⟩ : Product) ∉
      get_products ⟨[⟨"c1", "a", "b", 2, true, 0⟩, ⟨"c2", "a", "b", 1, true, 0⟩],
        [⟨"p1", "c1", "Cola", "Cola", none, none, 5, none, 0, false, 0⟩]⟩ none true := by
  have h := listing_spec
    ⟨[⟨"c1", "a", "b", 2, true, 0⟩, ⟨"c2", "a", "b", 1, true, 0⟩],
      [⟨"p1", "c1", "Cola", "Cola", none, none, 5, none, 0, false, 0⟩]⟩ false
    (by decide) (by decide)
  have h2 := listing_spec
    ⟨[⟨"c1", "a", "b", 2, true, 0⟩, ⟨"c2", "a", "b", 1, true, 0⟩],
      [⟨"p1", "c1", "Cola", "Cola", none, none, 5, none, 0, false, 0⟩]⟩ true
    (by decide) (by decide)
  refine ⟨(h.1 _).mpr (by decide), h.2.1, ?_⟩
  intro hmem
  have := (h2.2.2.1 _).mp hmem
  simp at this

/-- Every single operation preserves the referential-integrity
invariant, whether it succeeds or fails. -/
theorem step_preserves_ref_integrity {db db' : DB} (h : Step db db')
    (hri : RefIntegrity db) : RefIntegrity db' := by
  cases h with
  | createCat fields newId now =>
    intro p hp
    have hp' : p ∈ db.products := by simpa [create_category] using hp
    have hmem := hri p hp'
    simp only [create_category, List.map_append]
    exact List.mem_append_left _ hmem
  | updateCat cid u =>
    have hprod : (update_category db cid u).2.products = db.products := by
      unfold update_category
      by_cases hf : u.hasFields = true
      · by_cases hm : db.categories.any (fun c => c.id = cid) = true <;> simp [hf, hm]
      · simp [hf]
    have hcats : (update_category db cid u).2.categories.map (·.id) =
        db.categories.map (·.id) := by
      unfold update_category
      by_cases hf : u.hasFields = true
      · by_cases hm : db.categories.any (fun c => c.id = cid) = true <;>
          simp [hf, hm, updateFirst_map (fun c => c.id = cid) (applyCategoryUpdate u)
            (fun c => c.id) (fun _ => rfl)]
      · simp [hf]
    intro p hp
    rw [hprod] at hp
    rw [hcats]
    exact hri p hp
  | deleteCat cid =>
    by_cases hcount : 0 < db.products.countP (fun p => p.category_id = cid)
    · have hdb : (delete_category db cid).2 = db := by simp [delete_category, hcount]
      rw [hdb]; exact hri
    · have hzero : db.products.countP (fun p => p.category_id = cid) = 0 :=
        Nat.eq_zero_of_not_pos hcount
      have hnone := List.countP_eq_zero.mp hzero
      have hprod : (delete_category db cid).2.products = db.products := by
        unfold delete_category
        by_cases hm : db.categories.any (fun c => c.id = cid) = true <;>
          simp [hcount, hm]
      have hcats : (delete_category db cid).2.categories =
          eraseFirst (fun c => c.id = cid) db.categories := by
        unfold delete_category
        by_cases hm : db.categories.any (fun c => c.id = cid) = true <;>
          simp [hcount, hm]
      intro p hp
      rw [hprod] at hp
      rw [hcats]
      apply mem_map_eraseFirst _ _ (hri p hp)
      intro c hc heq
      have hcid : c.id = cid := by simpa using hc
      exact absurd (by simp [← heq, hcid]) (hnone p hp)
  | createProd fields newId now =>
    cases hfind : db.categories.find? (fun c => c.id = fields.category_id) with
    | none =>
      have hdb : (create_product db fields newId now).2 = db := by
        simp [create_product, hfind]
      rw [hdb]; exact hri
    | some c =>
      have hcmem : c ∈ db.categories := List.mem_of_find?_eq_some hfind
      have hcid : c.id = fields.category_id := by simpa using List.find?_some hfind
      intro p hp
      have hp' : p ∈ db.products ++
          [⟨newId, fields.category_id, fields.name_tr, fields.name_en,
            fields.description_tr, fields.description_en, fields.price,
            fields.image_url, fields.sort_order, fields.is_active, now⟩] := by
        simpa [create_product, hfind] using hp
      have hcats : (create_product db fields newId now).2.categories = db.categories := by
        simp [create_product, hfind]
      rw [hcats]
      rcases List.mem_append.mp hp' with hpo | hpn
      · exact hri p hpo
      · have hpeq : p.category_id = fields.category_id := by
          simp at hpn
          simp [hpn]
        rw [hpeq, ← hcid]
        exact List.mem_map.mpr ⟨c, hcmem, rfl⟩
  | updateProd pid u =>
    have hcats : (update_product db pid u).2.categories = db.categories := by
      unfold update_product
      by_cases hf : u.hasFields = true
      · by_cases hcat : (match u.category_id with
          | none => true
          | some catid => (db.categories.find? (fun c => c.id = catid)).isSome) = true
        · by_cases hm : db.products.any (fun x => x.id = pid) = true <;>
            simp [hf, hcat, hm]
        · simp [hf, hcat]
      · simp [hf]
    by_cases hf : u.hasFields = true
    · by_cases hcat : (match u.category_id with
        | none => true
        | some catid => (db.categories.find? (fun c => c.id = catid)).isSome) = true
      · have hprod : (update_product db pid u).2.products =
            updateFirst (fun x => x.id = pid) (applyProductUpdate u) db.products := by
          unfold update_product
          by_cases hm : db.products.any (fun x => x.id = pid) = true <;>
            simp [hf, hcat, hm]
        intro p hp
        rw [hprod] at hp
        rw [hcats]
        rcases mem_updateFirst _ _ hp with hpo | ⟨a, ha, hpa⟩
        · exact hri p hpo
        · cases hu : u.category_id with
          | none =>
            have : p.category_id = a.category_id := by
              simp [hpa, applyProductUpdate, hu]
            rw [this]
            exact hri a ha
          | some catid =>
            have hsome : (db.categories.find? (fun c => c.id = catid)).isSome := by
              rw [hu] at hcat
              simpa using hcat
            rcases Option.isSome_iff_exists.mp hsome with ⟨c, hc⟩
            have hcmem : c ∈ db.categories := List.mem_of_find?_eq_some hc
            have hcid : c.id = catid := by simpa using List.find?_some hc
            have : p.category_id = catid := by
              simp [hpa, applyProductUpdate, hu]
            rw [this, ← hcid]
            exact List.mem_map.mpr ⟨c, hcmem, rfl⟩
      · have hdb : (update_product db pid u).2 = db := by
          simp [update_product, hf, hcat]
        rw [hdb]; exact hri
    · have hdb : (update_product db pid u).2 = db := by
        simp [update_product, hf]
      rw [hdb]; exact hri
  | deleteProd pid =>
    have hcats : (delete_product db pid).2.categories = db.categories := by
      unfold delete_product
      by_cases hm : db.products.any (fun p => p.id = pid) = true <;> simp [hm]
    have hprod : (delete_product db pid).2.products =
        eraseFirst (fun p => p.id = pid) db.products := by
      unfold delete_product
      by_cases hm : db.products.any (fun p => p.id = pid) = true <;> simp [hm]
    intro p hp
    rw [hprod] at hp
    rw [hcats]
    exact hri p (mem_of_mem_eraseFirst _ hp)

/-- C1: Referential integrity: in every state reachable from the
empty store by a sequential interleaving of the six mutating operations
(category create/update/delete, product create/update/delete), every
stored product's `category_id` is the id of a stored category. -/
theorem reachable_ref_integrity (db : DB) (h : Reachable db) : RefIntegrity db := by
  induction h with
  | refl => intro p hp; cases hp
  | tail _ hstep ih => exact step_preserves_ref_integrity hstep ih

/-- Witness for C1: the state reached by creating a category and then a
product referencing it is reachable and satisfies the invariant. -/
theorem reachable_ref_integrity_witness :
    RefIntegrity (create_product
      (create_category DB.empty ⟨"Drinks", "Drinks", 1, true⟩ "c1" 0).2
      ⟨"c1", "Kola", "Cola", none, none, 5, none, 0, true⟩ "p1" 1).2 :=
  reachable_ref_integrity _
    (Relation.ReflTransGen.tail
      (Relation.ReflTransGen.tail Relation.ReflTransGen.refl
        (Step.createCat DB.empty ⟨"Drinks", "Drinks", 1, true⟩ "c1" 0))
      (Step.createProd _ ⟨"c1", "Kola", "Cola", none, none, 5, none, 0, true⟩ "p1" 1))
